import Mathlib

/-!
Shallow embedding of the deferred-transaction contract of the byzcoin
contract framework (`contracts` package, `deferred.go`), together with the
contract registry it consults.  Machine integers (`uint64`, `uint32`) are
modelled as `Nat` with explicit `% 2 ^ w` at the points where the Go code
can wrap; byte strings are `List Nat`; fallible Go code is modelled in
`Except DErr`, where `DErr` distinguishes an ordinary returned `error`
(`goError`) from a runtime panic (`goPanic`).
-/

namespace Deferred

/-- A byte string (`[]byte` in Go). -/
abbrev Bytes := List Nat

/-- A darc identity, kept abstract: the contract only compares identities
(`Equal`) and asks the environment to verify signatures under them. -/
structure Identity where
  tag : Nat
deriving DecidableEq, Repr

/-- One named argument of an instruction (`byzcoin.Argument`). -/
structure Argument where
  name : String
  value : Bytes
deriving DecidableEq, Repr

/-- The kind-specific payload of an instruction: exactly one of the `Spawn`,
`Invoke`, `Delete` pointers is set in Go; `invalidB` models the case where
none is set (`byzcoin.InvalidInstrType`). -/
inductive InstrBody where
  | spawnB (contractID : String) (args : List Argument)
  | invokeB (contractID : String) (command : String) (args : List Argument)
  | deleteB (contractID : String)
  | invalidB
deriving DecidableEq, Repr

/-- `byzcoin.Instruction`: target instance, payload, and the accumulated
detached proofs (signer identities and signatures). -/
structure Instruction where
  instanceID : Bytes
  body : InstrBody
  signerIdentities : List Identity
  signatures : List Bytes
deriving DecidableEq, Repr

/-- `byzcoin.ClientTransaction`: an ordered sequence of instructions. -/
structure ClientTransaction where
  instructions : List Instruction
deriving DecidableEq, Repr

/-- `deferredData`: the persisted state of one deferred instance. -/
structure DeferredData where
  proposedTransaction : ClientTransaction
  expireBlockIndex : Nat
  instructionHashes : List Bytes
  numExecution : Nat
  execResult : List Bytes
deriving DecidableEq, Repr

/-- A coin handed through the contract calls (`byzcoin.Coin`). -/
structure Coin where
  name : Bytes
  value : Nat
deriving DecidableEq, Repr

/-- The three state-change actions a contract can emit. -/
inductive StateAction where
  | create
  | update
  | remove
deriving DecidableEq, Repr

/-- `byzcoin.StateChange` as produced by `byzcoin.NewStateChange`. -/
structure StateChange where
  stateAction : StateAction
  instanceID : Bytes
  contractID : String
  value : Bytes
  darcID : Bytes
deriving DecidableEq, Repr

/-- Outcome of a fallible Go computation: a returned `error` value or a
runtime panic (for example an out-of-range slice index). -/
inductive DErr where
  | goError (msg : String)
  | goPanic (msg : String)
deriving DecidableEq, Repr

/-- Read-only view of the ledger state handed to every contract call:
`GetValues` returns `(value, version, contractID, darcID)`, and `GetIndex`
the current block index. -/
structure ReadOnlyStateTrie where
  getValues : Bytes → Except String (Bytes × Nat × String × Bytes)
  getIndex : Nat

/-- The behaviour of a re-hydrated target contract, as consumed by
`execProposedTx`: the dedicated deferred-verification entry point plus the
three dispatch methods. -/
structure Contract where
  verifyDeferredInstruction :
    ReadOnlyStateTrie → Instruction → Bytes → Except String Unit
  spawn : ReadOnlyStateTrie → Instruction → List Coin →
    Except String (List StateChange × List Coin)
  invoke : ReadOnlyStateTrie → Instruction → List Coin →
    Except String (List StateChange × List Coin)
  delete : ReadOnlyStateTrie → Instruction → List Coin →
    Except String (List StateChange × List Coin)

/-- The environment of external collaborators the deferred contract calls
into.  `getContractConstructor` is the contract registry (`ContractRegistry`
in the byzcoin package: a map from contract identifier to constructor, so a
lookup either finds the registered constructor or reports absence).
`encodeInstruction`, `encodeDeferredData`, `decodeTransaction` and
`decodeIdentity` model `protobuf` encoding and decoding.  `verifySig` models
`darc.Identity.Verify`, `basicVerify` the base
`byzcoin.BasicContract.VerifyInstruction` authorization check.  `deriveID`
is modelled from the spec: the derived identifier is a deterministic
identifier computed from an instruction (glossary of the spec); its concrete
derivation lives in the byzcoin package outside these sources.  `sha256` is
the cryptographic hash function. -/
structure Env where
  getContractConstructor : String → Option (Bytes → Except String Contract)
  encodeInstruction : Instruction → Except String Bytes
  encodeDeferredData : DeferredData → Except String Bytes
  decodeTransaction : Bytes → Except String ClientTransaction
  decodeIdentity : Bytes → Except String Identity
  verifySig : Identity → Bytes → Bytes → Bool
  basicVerify : ReadOnlyStateTrie → Instruction → Bytes → Except String Unit
  deriveID : Instruction → String → Bytes
  sha256 : Bytes → Bytes

/-- `Arguments.Search`: value of the first argument with the given name,
`none` when absent (Go returns `nil`). -/
def argsSearch (args : List Argument) (name : String) : Option Bytes :=
  (args.find? (fun a => a.name == name)).map (fun a => a.value)

/-- `binary.LittleEndian.Uint32`: reads the first four bytes; panics when
the buffer is shorter. -/
def uint32LE : Bytes → Except DErr Nat
  | b0 :: b1 :: b2 :: b3 :: _ =>
      .ok (b0 + 256 * b1 + 65536 * b2 + 16777216 * b3)
  | _ => .error (.goPanic "index out of range")

/-- `strconv.ParseUint(string(s), 10, 64)` over the byte string `s`. -/
def parseUint64 (s : Bytes) : Except String Nat :=
  if s.isEmpty then .error "invalid syntax"
  else if s.all (fun c => 48 ≤ c && c ≤ 57) then
    let v := s.foldl (fun acc c => acc * 10 + (c - 48)) 0
    if v < 18446744073709551616 then .ok v else .error "value out of range"
  else .error "invalid syntax"

/-- UTF-8 encoding of one character. -/
def charUTF8 (c : Char) : Bytes :=
  let n := c.toNat
  if n < 128 then [n]
  else if n < 2048 then [192 + n / 64, 128 + n % 64]
  else if n < 65536 then [224 + n / 4096, 128 + n / 64 % 64, 128 + n % 64]
  else [240 + n / 262144, 128 + n / 4096 % 64, 128 + n / 64 % 64, 128 + n % 64]

/-- UTF-8 bytes of a string (`[]byte(s)` in Go). -/
def strBytes (s : String) : Bytes :=
  (s.data.map charUTF8).flatten

/-- 8-byte little-endian encoding of a `uint64`
(`binary.LittleEndian.PutUint64`). -/
def uint64LE (n : Nat) : Bytes :=
  [n % 256, n / 256 % 256, n / 65536 % 256, n / 16777216 % 256,
   n / 4294967296 % 256, n / 1099511627776 % 256,
   n / 281474976710656 % 256, n / 72057594037927936 % 256]

/-- The bytes `hashDeferred` feeds to the hash for one argument: name
length, name bytes, value length, value bytes. -/
def argHashBytes (a : Argument) : Bytes :=
  uint64LE (strBytes a.name).length ++ strBytes a.name ++
    uint64LE a.value.length ++ a.value

/-- The byte stream written into the hash by `hashDeferred` (the SHA-256
state absorbs the concatenation of all `h.Write` calls): the instruction's
own instance identifier, then per-kind tag byte, contract identifier and
argument bytes, then the binding instance identifier. -/
def hashDeferredInput (instr : Instruction) (instanceID : Bytes) : Bytes :=
  instr.instanceID ++
    (match instr.body with
     | .spawnB cid args => 0 :: strBytes cid ++ (args.map argHashBytes).flatten
     | .invokeB cid _ args => 1 :: strBytes cid ++ (args.map argHashBytes).flatten
     | .deleteB cid => 2 :: strBytes cid
     | .invalidB => []) ++
    instanceID

/-- `hashDeferred`: the canonical deferred hash of one instruction under a
binding instance identifier. -/
def hashDeferred (env : Env) (instr : Instruction) (instanceID : Bytes) :
    Bytes :=
  env.sha256 (hashDeferredInput instr instanceID)

/-- The contract identifier of the deferred contract. -/
def ContractDeferredID : String := "deferred"

/-- Default number of executions when the Spawn omits `NumExecution`. -/
def defaultNumExecution : Nat := 1

/-- The `deferredData` value assembled by a successful Spawn: the decoded
transaction, the parsed expiry index, one canonical hash per proposed
instruction (bound, as in the source, to the Spawn instruction's own
`InstanceID`), the parsed execution counter, and an empty `ExecResult`. -/
def spawnDataOf (env : Env) (inst : Instruction)
    (proposedTransaction : ClientTransaction) (expireBlockIndex : Nat)
    (numExecution : Nat) : DeferredData :=
  { proposedTransaction := proposedTransaction,
    expireBlockIndex := expireBlockIndex,
    instructionHashes := proposedTransaction.instructions.map
      (fun p => hashDeferred env p inst.instanceID),
    numExecution := numExecution,
    execResult := [] }

/-- `contractDeferred.Spawn`. -/
def deferredSpawn (env : Env) (rst : ReadOnlyStateTrie) (inst : Instruction)
    (coins : List Coin) : Except DErr (List StateChange × List Coin) :=
  match rst.getValues inst.instanceID with
  | .error e => .error (.goError e)
  | .ok (_, _, _, darcID) =>
    match inst.body with
    | .spawnB _ args =>
      match env.decodeTransaction ((argsSearch args "proposedTransaction").getD []) with
      | .error e => .error (.goError ("couldn't decode proposedTransaction: " ++ e))
      | .ok proposedTransaction =>
        match parseUint64 ((argsSearch args "expireBlockIndex").getD []) with
        | .error e => .error (.goError ("couldn't convert expireBlockIndex: " ++ e))
        | .ok expireBlockIndex =>
          match (if ((argsSearch args "NumExecution").getD []).length > 0
                 then parseUint64 ((argsSearch args "NumExecution").getD [])
                 else .ok defaultNumExecution) with
          | .error e => .error (.goError ("couldn't parse NumExecution: " ++ e))
          | .ok numExecution =>
            match env.encodeDeferredData
                (spawnDataOf env inst proposedTransaction expireBlockIndex numExecution) with
            | .error e => .error (.goError ("couldn't encode deferredData: " ++ e))
            | .ok dataBuf =>
              .ok ([⟨.create, env.deriveID inst "", ContractDeferredID, dataBuf, darcID⟩],
                   coins)
    | _ => .error (.goPanic "invalid memory address or nil pointer dereference")

/-- The `deferredData` a successful Spawn stores (the local `data` of
`contractDeferred.Spawn`), before serialization. -/
def deferredSpawnData (env : Env) (rst : ReadOnlyStateTrie)
    (inst : Instruction) : Except DErr DeferredData :=
  match rst.getValues inst.instanceID with
  | .error e => .error (.goError e)
  | .ok _ =>
    match inst.body with
    | .spawnB _ args =>
      match env.decodeTransaction ((argsSearch args "proposedTransaction").getD []) with
      | .error e => .error (.goError ("couldn't decode proposedTransaction: " ++ e))
      | .ok proposedTransaction =>
        match parseUint64 ((argsSearch args "expireBlockIndex").getD []) with
        | .error e => .error (.goError ("couldn't convert expireBlockIndex: " ++ e))
        | .ok expireBlockIndex =>
          match (if ((argsSearch args "NumExecution").getD []).length > 0
                 then parseUint64 ((argsSearch args "NumExecution").getD [])
                 else .ok defaultNumExecution) with
          | .error e => .error (.goError ("couldn't parse NumExecution: " ++ e))
          | .ok numExecution =>
            .ok (spawnDataOf env inst proposedTransaction expireBlockIndex numExecution)
    | _ => .error (.goPanic "invalid memory address or nil pointer dereference")

/-- Replace the element at position `i` of a list by `f` of it; identity
when `i` is out of range. -/
def listModify (l : List α) (i : Nat) (f : α → α) : List α :=
  match l, i with
  | [], _ => []
  | a :: rest, 0 => f a :: rest
  | a :: rest, n + 1 => a :: listModify rest n f

/-- Append one detached proof to a proposed instruction's signer lists
(lines 176-177 of the source). -/
def addProofSigner (ins : Instruction) (identity : Identity)
    (signature : Bytes) : Instruction :=
  { ins with
    signerIdentities := ins.signerIdentities ++ [identity],
    signatures := ins.signatures ++ [signature] }

/-- The `deferredData` written by a successful `addProof`: the targeted
proposed instruction gains the new identity and signature; every other
field is unchanged. -/
def addProofUpdatedData (data : DeferredData) (index : Nat)
    (identity : Identity) (signature : Bytes) : DeferredData :=
  { data with
    proposedTransaction :=
      ⟨listModify data.proposedTransaction.instructions index
        (fun ins => addProofSigner ins identity signature)⟩ }

/-- `uint64` decrement by one, wrapping as Go's unsigned subtraction does. -/
def decUint64 (n : Nat) : Nat :=
  (n + 18446744073709551615) % 18446744073709551616

/-- The `deferredData` written by a successful `execProposedTx`:
`ExecResult` is overwritten with the derived identifiers and
`NumExecution` decremented by one (`uint64` arithmetic). -/
def execUpdatedData (data : DeferredData) (instructionIDs : List Bytes) :
    DeferredData :=
  { data with
    execResult := instructionIDs,
    numExecution := decUint64 data.numExecution }

/-- One iteration of the `execProposedTx` loop over a proposed instruction:
registry lookup of the target contract, re-encoding, re-hydration,
deferred verification against the stored hash (`hashOpt` is
`InstructionHashes[i]`, whose absence is the Go slice-index panic), then
dispatch by instruction kind, dropping the nested coin outputs. -/
def execStep (env : Env) (rst : ReadOnlyStateTrie) (coins : List Coin)
    (proposedInstr : Instruction) (hashOpt : Option Bytes) :
    Except DErr (List StateChange) :=
  match env.getContractConstructor
      (match proposedInstr.body with
       | .spawnB cid _ => cid
       | .invokeB cid _ _ => cid
       | .deleteB cid => cid
       | .invalidB => "") with
  | none => .error (.goError "Couldn't get the root function")
  | some fn =>
    match env.encodeInstruction proposedInstr with
    | .error _ => .error (.goError "Couldn't encode the root instruction buffer")
    | .ok rootInstructionBuff =>
      match fn rootInstructionBuff with
      | .error _ => .error (.goError "Couldn't get the root contract")
      | .ok contract =>
        match hashOpt with
        | none => .error (.goPanic "index out of range")
        | some hash =>
          match contract.verifyDeferredInstruction rst proposedInstr hash with
          | .error e => .error (.goError ("Verifying the instruction failed: " ++ e))
          | .ok _ =>
            match (match proposedInstr.body with
                   | .spawnB _ _ => (contract.spawn rst proposedInstr coins).map Prod.fst
                   | .invokeB _ _ _ => (contract.invoke rst proposedInstr coins).map Prod.fst
                   | .deleteB _ => (contract.delete rst proposedInstr coins).map Prod.fst
                   | .invalidB => .ok []) with
            | .error e => .error (.goError ("Error while executing an instruction: " ++ e))
            | .ok stateChanges => .ok stateChanges

/-- The `execProposedTx` loop: processes the proposed instructions in
stored order, pairing instruction `i` with `InstructionHashes[i]`, and
returns the derived identifiers together with the accumulated nested state
changes; the first failure aborts the whole loop. -/
def execLoop (env : Env) (rst : ReadOnlyStateTrie) (coins : List Coin) :
    List Instruction → List Bytes → Except DErr (List Bytes × List StateChange)
  | [], _ => .ok ([], [])
  | p :: rest, hashes =>
    match execStep env rst coins p hashes.head? with
    | .error e => .error e
    | .ok sc1 =>
      match execLoop env rst coins rest hashes.tail with
      | .error e => .error e
      | .ok (ids, scs) => .ok (env.deriveID p "" :: ids, sc1 ++ scs)

/-- `contractDeferred.Invoke`: dispatches on the command. `addProof`
appends one detached proof and emits one Update; `execProposedTx` runs the
stored transaction and emits the nested effects plus one Update;
every failure path returns an error and no state changes at all,
mirroring Go's `return nil, nil, err`. -/
def deferredInvoke (env : Env) (rst : ReadOnlyStateTrie) (inst : Instruction)
    (coins : List Coin) (data : DeferredData) :
    Except DErr (List StateChange × List Coin) :=
  match rst.getValues inst.instanceID with
  | .error e => .error (.goError e)
  | .ok (_, _, _, darcID) =>
    match inst.body with
    | .invokeB _ cmd args =>
      if cmd = "addProof" then
        match argsSearch args "index" with
        | none => .error (.goError "Index args is nil")
        | some indexBuf =>
          match uint32LE indexBuf with
          | .error e => .error e
          | .ok index =>
            if data.proposedTransaction.instructions.length % 4294967296 ≤ index then
              .error (.goError ("Index is out of range (" ++ toString index ++ " >= "
                ++ toString data.proposedTransaction.instructions.length ++ ")"))
            else
              match argsSearch args "identity" with
              | none => .error (.goError "Identity args is nil")
              | some identityBuf =>
                match env.decodeIdentity identityBuf with
                | .error _ => .error (.goError "Couldn't decode Identity")
                | .ok identity =>
                  match argsSearch args "signature" with
                  | none => .error (.goError "Signature args is nil")
                  | some signature =>
                    match env.encodeDeferredData
                        (addProofUpdatedData data index identity signature) with
                    | .error _ => .error (.goError "Couldn't encode deferredData")
                    | .ok cosiDataBuf =>
                      .ok ([⟨.update, inst.instanceID, ContractDeferredID,
                             cosiDataBuf, darcID⟩], coins)
      else if cmd = "execProposedTx" then
        match execLoop env rst coins data.proposedTransaction.instructions
            data.instructionHashes with
        | .error e => .error e
        | .ok (instructionIDs, nested) =>
          match env.encodeDeferredData (execUpdatedData data instructionIDs) with
          | .error _ => .error (.goError "Couldn't encode the result")
          | .ok resultBuf =>
            .ok (nested ++ [⟨.update, inst.instanceID, ContractDeferredID,
                             resultBuf, darcID⟩], coins)
      else .error (.goError "Deferred contract can only addProof and execProposedTx")
    | _ => .error (.goPanic "invalid memory address or nil pointer dereference")

/-- The `deferredData` whose encoding a successful `Invoke` stores in its
emitted Update (the mutated `c.deferredData` of the source), obtained by
mirroring `deferredInvoke` up to, but not including, the final
serialization. -/
def invokeNewData (env : Env) (rst : ReadOnlyStateTrie) (inst : Instruction)
    (coins : List Coin) (data : DeferredData) : Except DErr DeferredData :=
  match rst.getValues inst.instanceID with
  | .error e => .error (.goError e)
  | .ok _ =>
    match inst.body with
    | .invokeB _ cmd args =>
      if cmd = "addProof" then
        match argsSearch args "index" with
        | none => .error (.goError "Index args is nil")
        | some indexBuf =>
          match uint32LE indexBuf with
          | .error e => .error e
          | .ok index =>
            if data.proposedTransaction.instructions.length % 4294967296 ≤ index then
              .error (.goError ("Index is out of range (" ++ toString index ++ " >= "
                ++ toString data.proposedTransaction.instructions.length ++ ")"))
            else
              match argsSearch args "identity" with
              | none => .error (.goError "Identity args is nil")
              | some identityBuf =>
                match env.decodeIdentity identityBuf with
                | .error _ => .error (.goError "Couldn't decode Identity")
                | .ok identity =>
                  match argsSearch args "signature" with
                  | none => .error (.goError "Signature args is nil")
                  | some signature =>
                    .ok (addProofUpdatedData data index identity signature)
      else if cmd = "execProposedTx" then
        match execLoop env rst coins data.proposedTransaction.instructions
            data.instructionHashes with
        | .error e => .error e
        | .ok (instructionIDs, _) => .ok (execUpdatedData data instructionIDs)
      else .error (.goError "Deferred contract can only addProof and execProposedTx")
    | _ => .error (.goPanic "invalid memory address or nil pointer dereference")

/-- `contractDeferred.Delete`: emits one Remove for the instance and hands
the coins back. -/
def deferredDelete (rst : ReadOnlyStateTrie) (inst : Instruction)
    (coins : List Coin) : Except DErr (List StateChange × List Coin) :=
  match rst.getValues inst.instanceID with
  | .error e => .error (.goError e)
  | .ok (_, _, _, darcID) =>
    .ok ([⟨.remove, inst.instanceID, ContractDeferredID, [], darcID⟩], coins)

/-- `contractDeferred.VerifyInstruction`: the base authorization check,
then for any Invoke the execution-ceiling and expiry gates, then for
`addProof` the duplicate-identity and signature checks.  Note the source
indexes `ProposedTransaction.Instructions[index]` and
`InstructionHashes[index]` without a range check: an out-of-range index is
a Go panic, modelled by `goPanic`. -/
def deferredVerifyInstruction (env : Env) (rst : ReadOnlyStateTrie)
    (instr : Instruction) (ctxHash : Bytes) (data : DeferredData) :
    Except DErr Unit :=
  match env.basicVerify rst instr ctxHash with
  | .error e => .error (.goError e)
  | .ok _ =>
    match instr.body with
    | .invokeB _ cmd args =>
      if data.numExecution < 1 then
        .error (.goError "Maximum number of executions reached")
      else if data.expireBlockIndex < rst.getIndex then
        .error (.goError ("Current block index is too high ("
          ++ toString rst.getIndex ++ " > " ++ toString data.expireBlockIndex ++ ")"))
      else if cmd = "addProof" then
        match argsSearch args "identity" with
        | none => .error (.goError "Identity args is nil")
        | some identityBuf =>
          match env.decodeIdentity identityBuf with
          | .error _ => .error (.goError "Couldn't decode Identity")
          | .ok identity =>
            match argsSearch args "index" with
            | none => .error (.goError "Index args is nil")
            | some indexBuf =>
              match uint32LE indexBuf with
              | .error e => .error e
              | .ok index =>
                match data.proposedTransaction.instructions[index]? with
                | none => .error (.goPanic "index out of range")
                | some target =>
                  if identity ∈ target.signerIdentities then
                    .error (.goError "Identity already stored")
                  else
                    match argsSearch args "signature" with
                    | none => .error (.goError "Signature args is nil")
                    | some signature =>
                      match data.instructionHashes[index]? with
                      | none => .error (.goPanic "index out of range")
                      | some hash =>
                        if env.verifySig identity hash signature then .ok ()
                        else .error (.goError "Bad signature")
      else .ok ()
    | _ => .ok ()

/-- Modelled from the spec: the ledger framework (outside these sources)
evaluates `VerifyInstruction` before running the Invoke body
("Preconditions (enforced in VerifyInstruction, §4.6, *before* this body
runs)"), so a verified invocation is the sequential composition of the
two. -/
def invokeCombined (env : Env) (rst : ReadOnlyStateTrie) (inst : Instruction)
    (ctxHash : Bytes) (coins : List Coin) (data : DeferredData) :
    Except DErr (List StateChange × List Coin) :=
  match deferredVerifyInstruction env rst inst ctxHash data with
  | .error e => .error e
  | .ok _ => deferredInvoke env rst inst coins data

/-- The kind tag byte of the spec's canonical-hash description
(0 = Spawn, 1 = Invoke, 2 = Delete). -/
def InstrBody.kindTagBytes : InstrBody → Bytes
  | .spawnB _ _ => [0]
  | .invokeB _ _ _ => [1]
  | .deleteB _ => [2]
  | .invalidB => []

/-- The target contract identifier of an instruction body. -/
def InstrBody.contractIDStr : InstrBody → String
  | .spawnB cid _ => cid
  | .invokeB cid _ _ => cid
  | .deleteB cid => cid
  | .invalidB => ""

/-- The arguments carried by an instruction body (a Delete carries none). -/
def InstrBody.argsList : InstrBody → List Argument
  | .spawnB _ a => a
  | .invokeB _ _ a => a
  | .deleteB _ => []
  | .invalidB => []

/-- Reference definition following the spec's words (§4.5): feed into the
hash, in order, the instruction's own target-instance identifier, the
one-byte kind tag, the target contract identifier string, then for each
argument in stored order the name's length and bytes followed by the
value's length and bytes (lengths as fixed-width unsigned integers), and
finally the binding instance identifier — signer identities and signatures
contribute nothing. -/
def hashDeferredSpecInput (instr : Instruction) (bindingID : Bytes) : Bytes :=
  instr.instanceID ++ instr.body.kindTagBytes ++ strBytes instr.body.contractIDStr ++
    (instr.body.argsList.foldl (fun acc a => acc ++ argHashBytes a) []) ++ bindingID

/-- The spec's canonical deferred hash: the cryptographic hash of the
reference byte stream. -/
def hashDeferredSpec (env : Env) (instr : Instruction) (bindingID : Bytes) :
    Bytes :=
  env.sha256 (hashDeferredSpecInput instr bindingID)

/-- One verified operation on a deferred instance: some instruction passes
`VerifyInstruction`, the Invoke succeeds, and `d'` is the new
`DeferredData` carried by the emitted Update. -/
def VerifiedStep (env : Env) (d d' : DeferredData) : Prop :=
  ∃ rst inst ctxHash coins r,
    deferredVerifyInstruction env rst inst ctxHash d = .ok () ∧
    deferredInvoke env rst inst coins d = .ok r ∧
    invokeNewData env rst inst coins d = .ok d'

/-! Concrete instances used to evaluate the model on explicit inputs. -/

/-- A target contract that verifies and executes successfully, producing
one state change on Invoke. -/
def cSuccess : Contract :=
  { verifyDeferredInstruction := fun _ _ _ => .ok (),
    spawn := fun _ _ c => .ok ([], c),
    invoke := fun _ _ c => .ok ([⟨.update, [1], "x", [2], [3]⟩], c),
    delete := fun _ _ c => .ok ([], c) }

/-- A state view at block index 0 where every instance resolves. -/
def rstX : ReadOnlyStateTrie :=
  { getValues := fun _ => .ok ([], 0, "", [4]), getIndex := 0 }

/-- A state view at block index 5. -/
def rstE : ReadOnlyStateTrie :=
  { getValues := fun _ => .ok ([], 0, "", [4]), getIndex := 5 }

/-- A proposed Invoke instruction on the registered contract `x`. -/
def instrP : Instruction := ⟨[5], .invokeB "x" "transfer" [], [], []⟩

/-- A proposed Invoke instruction on the unregistered contract `y`. -/
def instrQ : Instruction := ⟨[5], .invokeB "y" "transfer" [], [], []⟩

/-- A proposed instruction that already carries a proof by identity 1. -/
def instrR : Instruction := ⟨[5], .invokeB "x" "transfer" [], [⟨1⟩], [[2]]⟩

/-- A concrete environment: contract `x` is registered and succeeds,
encodings are trivial, every identity decodes to its buffer length, all
signatures verify, the base check passes, identifiers derive to `[9]`, and
the hash function is the identity on byte streams. -/
def envX : Env :=
  { getContractConstructor := fun cid =>
      if cid = "x" then some (fun _ => .ok cSuccess) else none,
    encodeInstruction := fun _ => .ok [],
    encodeDeferredData := fun _ => .ok [9, 9],
    decodeTransaction := fun _ => .ok ⟨[instrP]⟩,
    decodeIdentity := fun b => .ok ⟨b.length⟩,
    verifySig := fun _ _ _ => true,
    basicVerify := fun _ _ _ => .ok (),
    deriveID := fun _ _ => [9],
    sha256 := fun b => b }

/-- Coins handed to the concrete calls. -/
def coinsX : List Coin := [⟨[0], 7⟩]

/-- An `execProposedTx` Invoke on a deferred instance at `[5]`. -/
def instX : Instruction :=
  ⟨[5], .invokeB ContractDeferredID "execProposedTx" [], [], []⟩

/-- Deferred state wrapping `instrP`, one execution left, expiry at 10,
with a leftover `ExecResult` from an earlier execution. -/
def dataX : DeferredData := ⟨⟨[instrP]⟩, 10, [[0]], 1, [[42]]⟩

/-- Deferred state wrapping the unregistered `instrQ`. -/
def dataF : DeferredData := ⟨⟨[instrQ]⟩, 10, [[0]], 1, []⟩

/-- Deferred state wrapping `instrR` (which already has identity 1's
proof). -/
def dataP : DeferredData := ⟨⟨[instrR]⟩, 10, [[0]], 1, []⟩

/-- Deferred state with `NumExecution = 0` and expiry at 3. -/
def dataE : DeferredData := ⟨⟨[instrP]⟩, 3, [[0]], 0, []⟩

/-- Deferred state with `NumExecution = 1` and expiry at 3. -/
def dataE1 : DeferredData := ⟨⟨[instrP]⟩, 3, [[0]], 1, []⟩

/-- An `addProof` Invoke with identity buffer `[1]`, index 0 and a
signature. -/
def instA : Instruction :=
  ⟨[5], .invokeB ContractDeferredID "addProof"
    [⟨"identity", [1]⟩, ⟨"index", [0, 0, 0, 0]⟩, ⟨"signature", [2]⟩], [], []⟩

/-- An `addProof` Invoke whose four-byte index decodes to 1, out of range
for a one-instruction proposed transaction. -/
def instB : Instruction :=
  ⟨[5], .invokeB ContractDeferredID "addProof"
    [⟨"identity", [1]⟩, ⟨"index", [1, 0, 0, 0]⟩, ⟨"signature", [2]⟩], [], []⟩

/-- A Spawn of a deferred instance at `[7]` with expiry argument `"1"`. -/
def instSp : Instruction :=
  ⟨[7], .spawnB ContractDeferredID
    [⟨"proposedTransaction", [0]⟩, ⟨"expireBlockIndex", [49]⟩], [], []⟩

/-- The deferred state the concrete Spawn stores: the hash stream of
`instrP` bound to the Spawn instruction's own instance identifier `[7]`. -/
def dSp : DeferredData := ⟨⟨[instrP]⟩, 1, [[5, 1, 120, 7]], 1, []⟩

/-- The state stored by the successful concrete `execProposedTx`. -/
def dataX' : DeferredData := execUpdatedData dataX [[9]]

/-! Helper lemmas. -/

theorem foldl_append_argHashBytes (l : List Argument) (acc : Bytes) :
    l.foldl (fun a b => a ++ argHashBytes b) acc = acc ++ (l.map argHashBytes).flatten := by
  induction l generalizing acc with
  | nil => simp
  | cons a rest ih => simp [ih, List.append_assoc]

theorem execLoop_ok_ids (env : Env) (rst : ReadOnlyStateTrie)
    (coins : List Coin) :
    ∀ (instrs : List Instruction) (hashes : List Bytes)
      (p : List Bytes × List StateChange),
      execLoop env rst coins instrs hashes = .ok p →
      p.1 = instrs.map (fun q => env.deriveID q "") := by
  intro instrs
  induction instrs with
  | nil =>
    intro hashes p h
    simp only [execLoop, Except.ok.injEq] at h
    subst h
    simp
  | cons q rest ih =>
    intro hashes p h
    simp only [execLoop] at h
    split at h
    · exact absurd h (by simp)
    · split at h
      · exact absurd h (by simp)
      · rename_i ids scs heq2
        simp only [Except.ok.injEq] at h
        subst h
        simpa using ih hashes.tail (ids, scs) heq2

theorem execLoop_ok_step (env : Env) (rst : ReadOnlyStateTrie)
    (coins : List Coin) :
    ∀ (instrs : List Instruction) (hashes : List Bytes)
      (p : List Bytes × List StateChange),
      execLoop env rst coins instrs hashes = .ok p →
      ∀ i (hi : i < instrs.length),
        ∃ sc, execStep env rst coins (instrs.get ⟨i, hi⟩)
          ((hashes.drop i).head?) = .ok sc := by
  intro instrs
  induction instrs with
  | nil => intro hashes p _ i hi; exact absurd hi (by simp)
  | cons q rest ih =>
    intro hashes p h i hi
    simp only [execLoop] at h
    split at h
    · exact absurd h (by simp)
    · rename_i sc1 heq1
      split at h
      · exact absurd h (by simp)
      · rename_i ids scs heq2
        match i with
        | 0 => exact ⟨sc1, by simpa using heq1⟩
        | j + 1 =>
          have hj : j < rest.length := by simpa using hi
          have := ih hashes.tail (ids, scs) heq2 j hj
          have harr : hashes.tail.drop j = hashes.drop (j + 1) := by
            rw [← List.drop_one, List.drop_drop, Nat.add_comm]
          simpa [harr] using this

/-! The claims. -/

/-- Claim C5: the canonical deferred hash is a pure deterministic function
of one instruction plus a binding identifier and equals the reference
definition of the spec (the hash of: the instruction's own target-instance
identifier, the one-byte kind tag, the contract identifier string, each
argument's name length, name bytes, value length and value bytes, and the
binding identifier), and the instruction's signer identities and signatures
contribute nothing to the digest. -/
theorem hashDeferred_matches_spec_and_ignores_signers (env : Env)
    (instr : Instruction) (bindingID : Bytes) (s : List Identity)
    (g : List Bytes) :
    hashDeferred env instr bindingID = hashDeferredSpec env instr bindingID ∧
    hashDeferred env ⟨instr.instanceID, instr.body, s, g⟩ bindingID =
      hashDeferred env instr bindingID := by
  constructor
  · unfold hashDeferred hashDeferredSpec
    congr 1
    unfold hashDeferredInput hashDeferredSpecInput
    cases instr.body with
    | spawnB cid args =>
      simp [InstrBody.kindTagBytes, InstrBody.contractIDStr, InstrBody.argsList,
        foldl_append_argHashBytes]
    | invokeB cid cmd args =>
      simp [InstrBody.kindTagBytes, InstrBody.contractIDStr, InstrBody.argsList,
        foldl_append_argHashBytes]
    | deleteB cid =>
      simp [InstrBody.kindTagBytes, InstrBody.contractIDStr, InstrBody.argsList]
    | invalidB =>
      simp [InstrBody.kindTagBytes, InstrBody.contractIDStr, InstrBody.argsList,
        strBytes]
  · rfl

/-- Claim C10: every deferred contract operation returns the coins it was
passed, unchanged; in particular `execProposedTx` discards the coin
outputs of the nested target-contract calls instead of propagating them. -/
theorem deferred_coin_passthrough (env : Env) (rst : ReadOnlyStateTrie)
    (inst : Instruction) (coins : List Coin) (data : DeferredData) :
    (∀ r, deferredSpawn env rst inst coins = .ok r → r.2 = coins) ∧
    (∀ r, deferredInvoke env rst inst coins data = .ok r → r.2 = coins) ∧
    (∀ r, deferredDelete rst inst coins = .ok r → r.2 = coins) := by
  refine ⟨?_, ?_, ?_⟩ <;> intro r h
  · unfold deferredSpawn at h
    repeat' split at h
    all_goals (try (injection h; done))
    all_goals (injection h with h; subst h; rfl)
  · unfold deferredInvoke at h
    repeat' split at h
    all_goals (try (injection h; done))
    all_goals (injection h with h; subst h; rfl)
  · unfold deferredDelete at h
    repeat' split at h
    all_goals (try (injection h; done))
    all_goals (injection h with h; subst h; rfl)

/-- Witness for C10 at concrete inputs: a successful Spawn, a successful
`execProposedTx` Invoke and a successful Delete all hand back `coinsX`. -/
theorem deferred_coin_passthrough_witness :
    (([⟨.create, [9], ContractDeferredID, [9, 9], [4]⟩] : List StateChange),
      coinsX).2 = coinsX ∧
    (([⟨.update, [1], "x", [2], [3]⟩,
       ⟨.update, [5], ContractDeferredID, [9, 9], [4]⟩] : List StateChange),
      coinsX).2 = coinsX ∧
    (([⟨.remove, [5], ContractDeferredID, [], [4]⟩] : List StateChange),
      coinsX).2 = coinsX :=
  ⟨(deferred_coin_passthrough envX rstX instSp coinsX dataX).1
      (([⟨.create, [9], ContractDeferredID, [9, 9], [4]⟩], coinsX)) rfl,
   (deferred_coin_passthrough envX rstX instX coinsX dataX).2.1
      (([⟨.update, [1], "x", [2], [3]⟩,
         ⟨.update, [5], ContractDeferredID, [9, 9], [4]⟩], coinsX)) rfl,
   (deferred_coin_passthrough envX rstX instX coinsX dataX).2.2
      (([⟨.remove, [5], ContractDeferredID, [], [4]⟩], coinsX)) rfl⟩

/-- Claim C1: `execProposedTx` is all-or-nothing.  If the processing loop
over the proposed instructions fails (registry lookup, re-encoding,
re-hydration, deferred verification or dispatch of any instruction), the
whole Invoke returns that error — and an error return carries no state
changes at all in this embedding, exactly as Go's `return nil, nil, err`:
no effects from earlier instructions of the batch and no Update of the
instance's own DeferredData.  Conversely, a successful loop means every
single step succeeded, so a failing step can never coexist with a
successful invocation. -/
theorem deferred_execProposedTx_atomic (env : Env) (rst : ReadOnlyStateTrie)
    (inst : Instruction) (coins : List Coin) (data : DeferredData)
    (cid0 : String) (args : List Argument) (q : Bytes × Nat × String × Bytes)
    (hgv : rst.getValues inst.instanceID = .ok q)
    (hbody : inst.body = .invokeB cid0 "execProposedTx" args) :
    (∀ e, execLoop env rst coins data.proposedTransaction.instructions
        data.instructionHashes = .error e →
      deferredInvoke env rst inst coins data = .error e) ∧
    (∀ p, execLoop env rst coins data.proposedTransaction.instructions
        data.instructionHashes = .ok p →
      ∀ i (hi : i < data.proposedTransaction.instructions.length),
        ∃ sc, execStep env rst coins
          (data.proposedTransaction.instructions.get ⟨i, hi⟩)
          ((data.instructionHashes.drop i).head?) = .ok sc) := by
  constructor
  · intro e he
    unfold deferredInvoke
    rw [hgv, hbody]
    simp [he]
  · intro p hp i hi
    exact execLoop_ok_step env rst coins data.proposedTransaction.instructions
      data.instructionHashes p hp i hi

/-- Witness for C1: on the concrete instance whose proposed instruction
targets the unregistered contract `y`, the loop fails at the registry
lookup and the whole invocation returns exactly that error. -/
theorem deferred_execProposedTx_atomic_witness :
    deferredInvoke envX rstX instX coinsX dataF =
      .error (.goError "Couldn't get the root function") :=
  (deferred_execProposedTx_atomic envX rstX instX coinsX dataF
      ContractDeferredID [] ([], 0, "", [4]) rfl rfl).1
    (.goError "Couldn't get the root function") rfl

/-- Claim C4: when `execProposedTx` fully succeeds, the new DeferredData
carried by the emitted Update has `ExecResult` equal to the derived target
identifiers of the proposed instructions in stored order (overwriting any
previous `ExecResult`), `NumExecution` equal to the previous value minus
exactly one, and the result is the accumulated nested effects plus exactly
one Update for the deferred instance itself. -/
theorem deferred_execProposedTx_success_shape (env : Env)
    (rst : ReadOnlyStateTrie) (inst : Instruction) (coins : List Coin)
    (data : DeferredData) (cid0 : String) (args : List Argument)
    (v : Bytes) (ver : Nat) (cid1 : String) (darcID : Bytes)
    (ids : List Bytes) (nested : List StateChange) (buf : Bytes)
    (hgv : rst.getValues inst.instanceID = .ok (v, ver, cid1, darcID))
    (hbody : inst.body = .invokeB cid0 "execProposedTx" args)
    (hloop : execLoop env rst coins data.proposedTransaction.instructions
      data.instructionHashes = .ok (ids, nested))
    (henc : env.encodeDeferredData (execUpdatedData data ids) = .ok buf)
    (hn1 : 1 ≤ data.numExecution)
    (hn2 : data.numExecution < 18446744073709551616) :
    deferredInvoke env rst inst coins data =
      .ok (nested ++ [⟨.update, inst.instanceID, ContractDeferredID, buf, darcID⟩],
           coins) ∧
    (execUpdatedData data ids).execResult = ids ∧
    ids = data.proposedTransaction.instructions.map (fun q => env.deriveID q "") ∧
    (execUpdatedData data ids).numExecution = data.numExecution - 1 := by
  refine ⟨?_, rfl, ?_, ?_⟩
  · unfold deferredInvoke
    rw [hgv, hbody]
    simp [hloop, henc]
  · exact execLoop_ok_ids env rst coins data.proposedTransaction.instructions
      data.instructionHashes (ids, nested) hloop
  · unfold execUpdatedData decUint64
    simp only
    omega

/-- Witness for C4: the concrete successful execution overwrites the
leftover `ExecResult` `[[42]]` with the derived identifier `[9]`,
decrements `NumExecution` from 1 to 0, and emits the nested effect plus
exactly one Update. -/
theorem deferred_execProposedTx_success_shape_witness :
    deferredInvoke envX rstX instX coinsX dataX =
      .ok ([⟨.update, [1], "x", [2], [3]⟩] ++
           [⟨.update, [5], ContractDeferredID, [9, 9], [4]⟩], coinsX) ∧
    (execUpdatedData dataX [[9]]).execResult = [[9]] ∧
    ([[9]] : List Bytes) = dataX.proposedTransaction.instructions.map
      (fun q => envX.deriveID q "") ∧
    (execUpdatedData dataX [[9]]).numExecution = dataX.numExecution - 1 :=
  deferred_execProposedTx_success_shape envX rstX instX coinsX dataX
    ContractDeferredID [] [] 0 "" [4] [[9]] [⟨.update, [1], "x", [2], [3]⟩]
    [9, 9] rfl rfl rfl rfl (by decide) (by decide)

/-- Counterexample to C6 as stated: with `NumExecution = 0` and the current
index 5 past the expiry 3, `VerifyInstruction` rejects with the
execution-ceiling error, not the expiry error — the ceiling check runs
first. -/
theorem deferred_expiry_error_counterexample :
    deferredVerifyInstruction envX rstE instX [] dataE =
      .error (.goError "Maximum number of executions reached") ∧
    DErr.goError "Maximum number of executions reached" ≠
      .goError ("Current block index is too high (" ++ toString rstE.getIndex
        ++ " > " ++ toString dataE.expireBlockIndex ++ ")") :=
  ⟨rfl, by decide⟩

/-- Claim C6 (amended): on any Invoke instruction whose current ledger
index strictly exceeds the stored expiry, `VerifyInstruction` always
rejects; the rejection is the expiry error whenever at least one execution
remains, and the execution-ceiling error (checked first) when
`NumExecution` is zero. -/
theorem deferred_expiry_rejection_amended (env : Env)
    (rst : ReadOnlyStateTrie) (inst : Instruction) (ctxHash : Bytes)
    (data : DeferredData) (cid : String) (cmd : String)
    (args : List Argument)
    (hbody : inst.body = .invokeB cid cmd args)
    (hexp : data.expireBlockIndex < rst.getIndex) :
    (env.basicVerify rst inst ctxHash = .ok () → 1 ≤ data.numExecution →
      deferredVerifyInstruction env rst inst ctxHash data =
        .error (.goError ("Current block index is too high ("
          ++ toString rst.getIndex ++ " > "
          ++ toString data.expireBlockIndex ++ ")"))) ∧
    (env.basicVerify rst inst ctxHash = .ok () → data.numExecution = 0 →
      deferredVerifyInstruction env rst inst ctxHash data =
        .error (.goError "Maximum number of executions reached")) ∧
    (∃ e, deferredVerifyInstruction env rst inst ctxHash data = .error e) := by
  refine ⟨?_, ?_, ?_⟩
  · intro hb hn
    unfold deferredVerifyInstruction
    rw [hb, hbody]
    simp only
    rw [if_neg (by omega), if_pos hexp]
  · intro hb hn
    unfold deferredVerifyInstruction
    rw [hb, hbody]
    simp only
    rw [if_pos (by omega)]
  · cases hb : env.basicVerify rst inst ctxHash with
    | error e =>
      refine ⟨.goError e, ?_⟩
      unfold deferredVerifyInstruction
      rw [hb]
    | ok u =>
      cases u
      by_cases hn : data.numExecution < 1
      · refine ⟨.goError "Maximum number of executions reached", ?_⟩
        unfold deferredVerifyInstruction
        rw [hb, hbody]
        simp only
        rw [if_pos hn]
      · refine ⟨.goError ("Current block index is too high ("
          ++ toString rst.getIndex ++ " > "
          ++ toString data.expireBlockIndex ++ ")"), ?_⟩
        unfold deferredVerifyInstruction
        rw [hb, hbody]
        simp only
        rw [if_neg hn, if_pos hexp]

/-- Witness for the amended C6: with one execution left and current index
5 past expiry 3, the rejection is the expiry error. -/
theorem deferred_expiry_rejection_amended_witness :
    deferredVerifyInstruction envX rstE instX [] dataE1 =
      .error (.goError ("Current block index is too high ("
        ++ toString rstE.getIndex ++ " > "
        ++ toString dataE1.expireBlockIndex ++ ")")) :=
  (deferred_expiry_rejection_amended envX rstE instX [] dataE1
      ContractDeferredID "execProposedTx" [] rfl (by decide)).1 rfl (by decide)

/-- Claim C8: an `addProof` whose supplied identity already appears among
the targeted proposed instruction's collected signer identities is
rejected by `VerifyInstruction` with the duplicate-proof error, so the
combined verified invocation fails — and an error return emits no state
change, leaving the stored DeferredData exactly as it was. -/
theorem deferred_duplicate_proof_rejected (env : Env)
    (rst : ReadOnlyStateTrie) (inst : Instruction) (ctxHash : Bytes)
    (coins : List Coin) (data : DeferredData) (cid : String)
    (args : List Argument) (identityBuf indexBuf : Bytes) (ident : Identity)
    (i : Nat) (tgt : Instruction)
    (hbody : inst.body = .invokeB cid "addProof" args)
    (hbasic : env.basicVerify rst inst ctxHash = .ok ())
    (hnum : 1 ≤ data.numExecution)
    (hexp : rst.getIndex ≤ data.expireBlockIndex)
    (hidbuf : argsSearch args "identity" = some identityBuf)
    (hdec : env.decodeIdentity identityBuf = .ok ident)
    (hixbuf : argsSearch args "index" = some indexBuf)
    (hix : uint32LE indexBuf = .ok i)
    (htgt : data.proposedTransaction.instructions[i]? = some tgt)
    (hmem : ident ∈ tgt.signerIdentities) :
    deferredVerifyInstruction env rst inst ctxHash data =
      .error (.goError "Identity already stored") ∧
    invokeCombined env rst inst ctxHash coins data =
      .error (.goError "Identity already stored") := by
  have h1 : deferredVerifyInstruction env rst inst ctxHash data =
      .error (.goError "Identity already stored") := by
    unfold deferredVerifyInstruction
    rw [hbasic, hbody]
    simp only [hidbuf, hdec, hixbuf, hix, htgt]
    rw [if_neg (by omega), if_neg (by omega), if_pos (show True from trivial),
      if_pos hmem]
  refine ⟨h1, ?_⟩
  unfold invokeCombined
  rw [h1]

/-- Witness for C8: the concrete `addProof` carrying identity 1 against
the instruction that already holds identity 1's proof is rejected with the
duplicate-proof error, both in `VerifyInstruction` alone and in the
combined verified invocation. -/
theorem deferred_duplicate_proof_rejected_witness :
    deferredVerifyInstruction envX rstX instA [] dataP =
      .error (.goError "Identity already stored") ∧
    invokeCombined envX rstX instA [] coinsX dataP =
      .error (.goError "Identity already stored") :=
  deferred_duplicate_proof_rejected envX rstX instA [] coinsX dataP
    ContractDeferredID
    [⟨"identity", [1]⟩, ⟨"index", [0, 0, 0, 0]⟩, ⟨"signature", [2]⟩]
    [1] [0, 0, 0, 0] ⟨1⟩ 0 instrR rfl rfl (by decide) (by decide)
    rfl rfl rfl rfl rfl (by decide)


/-- Claim C7: with `NumExecution = 1`, a verified `execProposedTx` whose
proposed instructions all verify and execute (and whose result encodes)
succeeds, stores `NumExecution = 0`, and afterwards every Invoke on the
resulting state is rejected by `VerifyInstruction`: with the base check
passing, the rejection is exactly the execution-ceiling error, so no
verified invocation can ever succeed again. -/
theorem deferred_single_execution_then_inert (env : Env)
    (rst : ReadOnlyStateTrie) (inst : Instruction) (ctxHash : Bytes)
    (coins : List Coin) (data : DeferredData) (cid0 : String)
    (args : List Argument) (v : Bytes) (ver : Nat) (cid1 : String)
    (darcID : Bytes) (ids : List Bytes) (nested : List StateChange)
    (buf : Bytes)
    (hone : data.numExecution = 1)
    (hgv : rst.getValues inst.instanceID = .ok (v, ver, cid1, darcID))
    (hbody : inst.body = .invokeB cid0 "execProposedTx" args)
    (_hverif : deferredVerifyInstruction env rst inst ctxHash data = .ok ())
    (hloop : execLoop env rst coins data.proposedTransaction.instructions
      data.instructionHashes = .ok (ids, nested))
    (henc : env.encodeDeferredData (execUpdatedData data ids) = .ok buf) :
    deferredInvoke env rst inst coins data =
      .ok (nested ++ [⟨.update, inst.instanceID, ContractDeferredID, buf, darcID⟩],
           coins) ∧
    (execUpdatedData data ids).numExecution = 0 ∧
    (∀ rst2 inst2 ctx2 coins2 cid2 cmd2 args2,
      inst2.body = .invokeB cid2 cmd2 args2 →
      (∃ e, invokeCombined env rst2 inst2 ctx2 coins2
        (execUpdatedData data ids) = .error e) ∧
      (env.basicVerify rst2 inst2 ctx2 = .ok () →
        invokeCombined env rst2 inst2 ctx2 coins2 (execUpdatedData data ids) =
          .error (.goError "Maximum number of executions reached"))) := by
  have h0 : (execUpdatedData data ids).numExecution = 0 := by
    simp [execUpdatedData, decUint64, hone]
  refine ⟨?_, h0, ?_⟩
  · unfold deferredInvoke
    rw [hgv, hbody]
    simp [hloop, henc]
  · intro rst2 inst2 ctx2 coins2 cid2 cmd2 args2 hbody2
    have hv2 : env.basicVerify rst2 inst2 ctx2 = .ok () →
        deferredVerifyInstruction env rst2 inst2 ctx2 (execUpdatedData data ids) =
          .error (.goError "Maximum number of executions reached") := by
      intro hb
      unfold deferredVerifyInstruction
      rw [hb, hbody2]
      simp only
      rw [if_pos (by omega)]
    constructor
    · cases hb : env.basicVerify rst2 inst2 ctx2 with
      | error e =>
        refine ⟨.goError e, ?_⟩
        have hv3 : deferredVerifyInstruction env rst2 inst2 ctx2
            (execUpdatedData data ids) = .error (.goError e) := by
          unfold deferredVerifyInstruction
          rw [hb]
        unfold invokeCombined
        rw [hv3]
      | ok u =>
        cases u
        refine ⟨.goError "Maximum number of executions reached", ?_⟩
        unfold invokeCombined
        rw [hv2 hb]
    · intro hb
      unfold invokeCombined
      rw [hv2 hb]

/-- Witness for C7: the concrete deferred instance with one permitted
execution executes successfully, ends at `NumExecution = 0`, and a second
`execProposedTx` on the stored state is rejected with the
execution-ceiling error. -/
theorem deferred_single_execution_then_inert_witness :
    deferredInvoke envX rstX instX coinsX dataX =
      .ok ([⟨.update, [1], "x", [2], [3]⟩] ++
           [⟨.update, [5], ContractDeferredID, [9, 9], [4]⟩], coinsX) ∧
    (execUpdatedData dataX [[9]]).numExecution = 0 ∧
    invokeCombined envX rstX instX [] coinsX (execUpdatedData dataX [[9]]) =
      .error (.goError "Maximum number of executions reached") := by
  have h := deferred_single_execution_then_inert envX rstX instX [] coinsX
    dataX ContractDeferredID [] [] 0 "" [4] [[9]]
    [⟨.update, [1], "x", [2], [3]⟩] [9, 9]
    (by decide) rfl rfl rfl rfl rfl
  exact ⟨h.1, h.2.1,
    (h.2.2 rstX instX [] coinsX ContractDeferredID "execProposedTx" [] rfl).2 rfl⟩

/-- Counterexample to C2 as stated: on the concrete Spawn, the stored
instruction hash is bound to the Spawn instruction's own instance
identifier `[7]`, not to the derived identifier `[9]` of the newly created
instance — so the entries are not the canonical hashes seeded with the new
instance's identifier. -/
theorem deferred_spawn_hash_binding_counterexample :
    deferredSpawnData envX rstX instSp = .ok dSp ∧
    dSp.instructionHashes ≠ dSp.proposedTransaction.instructions.map
      (fun q => hashDeferred envX q (envX.deriveID instSp "")) :=
  ⟨rfl, by decide⟩

/-- Claim C2 (amended): for every successful Spawn, each entry of
`InstructionHashes` is the canonical deferred hash of the corresponding
proposed instruction with the binding identifier equal to the *Spawn
instruction's own target instance identifier* (`inst.InstanceID`), while
the Create state change stores the new DeferredData under the derived
identifier `inst.DeriveID("")` — in general a different identifier. -/
theorem deferred_spawn_hash_binding_amended (env : Env)
    (rst : ReadOnlyStateTrie) (inst : Instruction) (d : DeferredData)
    (h : deferredSpawnData env rst inst = .ok d) :
    d.instructionHashes = d.proposedTransaction.instructions.map
      (fun q => hashDeferred env q inst.instanceID) ∧
    ∀ coins r, deferredSpawn env rst inst coins = .ok r →
      ∃ buf darc,
        r = ([⟨.create, env.deriveID inst "", ContractDeferredID, buf, darc⟩],
             coins) := by
  constructor
  · unfold deferredSpawnData at h
    repeat' split at h
    all_goals (try (injection h; done))
    all_goals (injection h with h; subst h; simp [spawnDataOf])
  · intro coins r h2
    unfold deferredSpawn at h2
    repeat' split at h2
    all_goals (try (injection h2; done))
    all_goals (injection h2 with h2; subst h2; exact ⟨_, _, rfl⟩)

/-- Witness for the amended C2: the concrete Spawn stores the hash of
`instrP` bound to the Spawn instruction's own identifier `[7]`. -/
theorem deferred_spawn_hash_binding_amended_witness :
    dSp.instructionHashes = dSp.proposedTransaction.instructions.map
      (fun q => hashDeferred envX q instSp.instanceID) :=
  (deferred_spawn_hash_binding_amended envX rstX instSp dSp rfl).1

/-- Claim C3 evaluated at the failing input (a code bug): an `addProof`
with a well-formed 4-byte index decoding to 1 against a one-instruction
proposed transaction, a decodable identity and a signature argument makes
`VerifyInstruction` panic at the unguarded
`ProposedTransaction.Instructions[index]` access, so the combined
verification-and-invocation crashes instead of returning an error; only
the Invoke body run on its own reaches its own range check and returns
the graceful out-of-range error. -/
theorem deferred_addProof_out_of_range_panics :
    deferredVerifyInstruction envX rstX instB [] dataX =
      .error (.goPanic "index out of range") ∧
    invokeCombined envX rstX instB [] coinsX dataX =
      .error (.goPanic "index out of range") ∧
    deferredInvoke envX rstX instB coinsX dataX =
      .error (.goError ("Index is out of range (" ++ toString (1 : Nat)
        ++ " >= "
        ++ toString dataX.proposedTransaction.instructions.length ++ ")")) :=
  ⟨rfl, rfl, rfl⟩

/-- A successful `invokeNewData` implies the instruction is an Invoke. -/
theorem invokeNewData_invokeB (env : Env) (rst : ReadOnlyStateTrie)
    (inst : Instruction) (coins : List Coin) (data : DeferredData)
    (d' : DeferredData)
    (h : invokeNewData env rst inst coins data = .ok d') :
    ∃ cid cmd args, inst.body = .invokeB cid cmd args := by
  unfold invokeNewData at h
  repeat' split at h
  all_goals (try (injection h; done))
  all_goals exact ⟨_, _, _, by assumption⟩

/-- A passing `VerifyInstruction` on an Invoke instruction implies at
least one execution remains. -/
theorem verify_ok_min (env : Env) (rst : ReadOnlyStateTrie)
    (inst : Instruction) (ctxHash : Bytes) (data : DeferredData)
    (cid cmd : String) (args : List Argument)
    (hb : inst.body = .invokeB cid cmd args)
    (hv : deferredVerifyInstruction env rst inst ctxHash data = .ok ()) :
    1 ≤ data.numExecution := by
  unfold deferredVerifyInstruction at hv
  rw [hb] at hv
  split at hv
  · injection hv
  · simp only at hv
    by_cases h0 : data.numExecution < 1
    · rw [if_pos h0] at hv
      injection hv
    · omega

/-- One verified step never increases the stored execution counter. -/
theorem step_numExecution_le (env : Env) (d d' : DeferredData)
    (hlt : d.numExecution < 18446744073709551616)
    (hstep : VerifiedStep env d d') :
    d'.numExecution ≤ d.numExecution := by
  obtain ⟨rst, inst, ctx, coins, r, hv, hi, hn⟩ := hstep
  obtain ⟨cid, cmd, args, hb⟩ := invokeNewData_invokeB env rst inst coins d d' hn
  have hmin := verify_ok_min env rst inst ctx d cid cmd args hb hv
  unfold invokeNewData at hn
  repeat' split at hn
  all_goals (try (injection hn; done))
  all_goals (injection hn with hn; subst hn)
  · simp [addProofUpdatedData]
  · simp only [execUpdatedData, decUint64]
    omega

/-- Claim C9: across every sequence of verified operations (`addProof` and
`execProposedTx`, each admitted by `VerifyInstruction` and completing
successfully), the stored `NumExecution` never increases; in particular
the `uint64` decrement of a successful `execProposedTx` cannot wrap,
because `VerifyInstruction` only admits the Invoke when at least one
execution remains. -/
theorem deferred_numExecution_monotone (env : Env) (d d' : DeferredData)
    (hlt : d.numExecution < 18446744073709551616)
    (h : Relation.ReflTransGen (VerifiedStep env) d d') :
    d'.numExecution ≤ d.numExecution := by
  induction h with
  | refl => exact le_refl _
  | tail hab hbc ih =>
    rename_i b c
    have hb : b.numExecution < 18446744073709551616 := lt_of_le_of_lt ih hlt
    exact le_trans (step_numExecution_le env b c hb hbc) ih

/-- Witness for C9: one concrete verified `execProposedTx` step takes the
counter from 1 to 0, which does not exceed 1. -/
theorem deferred_numExecution_monotone_witness :
    dataX'.numExecution ≤ dataX.numExecution :=
  deferred_numExecution_monotone envX dataX dataX' (by decide)
    (Relation.ReflTransGen.single
      ⟨rstX, instX, [], coinsX,
       ([⟨.update, [1], "x", [2], [3]⟩,
         ⟨.update, [5], ContractDeferredID, [9, 9], [4]⟩], coinsX),
       rfl, rfl, rfl⟩)

end Deferred

